import Mathlib

/-!
Verification development for the EELS quantification controller
(`nionswift_plugin/nion_eels_analysis/EELSQuantificationController.py`).

The Python source is shallowly embedded below.  Energy values (eV) and
fractional positions are modelled by `ℚ` (the host uses IEEE floats; every
computation the claims exercise is affine arithmetic, exact over `ℚ`).
Python object identity, which matters because `list.remove` and the default
`==` compare objects by identity, is modelled by an explicit `oid : Nat` tag
carried next to the value.  Fallible Python code (index errors, failed
assertions, the `data_len > 0` precondition) is modelled with `Option` /
`Except`: a `none` / `.error` result is a raised exception.
-/

/-- An interval value object (`EELSInterval`): optional start/end in eV.
`start_ev`/`end_ev` absent models Python `None`. -/
structure EELSInterval where
  start_ev : Option ℚ
  end_ev : Option ℚ
deriving DecidableEq, Repr

/-- Affine calibration from the host (`nion.data.Calibration`), pixel → eV:
`convert_to_calibrated_value(v) = offset + v * scale`,
`convert_from_calibrated_value(v) = (v - offset) / scale`.
The host requires a nonzero scale; theorems below assume `scale ≠ 0` where the
inverse transform is exercised. -/
structure Calibration where
  offset : ℚ
  scale : ℚ
deriving DecidableEq, Repr

def Calibration.convert_to_calibrated_value (c : Calibration) (v : ℚ) : ℚ :=
  c.offset + v * c.scale

def Calibration.convert_from_calibrated_value (c : Calibration) (v : ℚ) : ℚ :=
  (v - c.offset) / c.scale

/-- `EELSInterval.from_fractional_interval`: asserts `data_len > 0` (modelled
by `none` on violation), converts both fractional bounds to calibrated
values.  Always produces both bounds. -/
def EELSInterval.from_fractional_interval (data_len : Nat) (calibration : Calibration)
    (interval : ℚ × ℚ) : Option EELSInterval :=
  if data_len = 0 then none
  else
    some ⟨some (calibration.convert_to_calibrated_value (interval.1 * data_len)),
          some (calibration.convert_to_calibrated_value (interval.2 * data_len))⟩

/-- `EELSInterval.to_fractional_interval`: asserts `data_len > 0`; reading a
missing bound raises in Python (arithmetic on `None`), modelled by `none`. -/
def EELSInterval.to_fractional_interval (i : EELSInterval) (data_len : Nat)
    (calibration : Calibration) : Option (ℚ × ℚ) :=
  if data_len = 0 then none
  else
    match i.start_ev, i.end_ev with
    | some s, some e =>
        some (calibration.convert_from_calibrated_value s / data_len,
              calibration.convert_from_calibrated_value e / data_len)
    | _, _ => none

/-- `EELSInterval.width_ev`: `end - start` when both present, else `None`. -/
def EELSInterval.width_ev (i : EELSInterval) : Option ℚ :=
  match i.start_ev, i.end_ev with
  | some s, some e => some (e - s)
  | _, _ => none

/-- Serialized form of an `EELSInterval` (`_write_to_dict`): a dict whose
`start_ev` / `end_ev` keys are present exactly when the bound is present.
A structure of options is the faithful image of that dict. -/
structure IntervalDict where
  start_ev : Option ℚ
  end_ev : Option ℚ
deriving DecidableEq, Repr

def EELSInterval.write_to_dict (i : EELSInterval) : IntervalDict :=
  ⟨i.start_ev, i.end_ev⟩

/-- Modelled from the spec: `nion.eels_analysis.PeriodicTable.ElectronShell`
is external reference data (out of scope per the spec); the controller only
stores it, serializes it via `_write_to_dict` and reloads it via `from_d`.
Its dict form carries its identifying numbers, and `from_d(None)` is `None`. -/
structure ElectronShell where
  atomic_number : Nat
  shell_number : Nat
  subshell_index : Nat
deriving DecidableEq, Repr

/-- Modelled from the spec: the serialized `ShellDict`. -/
structure ShellDict where
  atomic_number : Nat
  shell_number : Nat
  subshell_index : Nat
deriving DecidableEq, Repr

def ElectronShell.write_to_dict (s : ElectronShell) : ShellDict :=
  ⟨s.atomic_number, s.shell_number, s.subshell_index⟩

def ElectronShell.from_d (d : Option ShellDict) : Option ElectronShell :=
  d.map fun sd => ⟨sd.atomic_number, sd.shell_number, sd.subshell_index⟩

/-- Python is dynamically typed: the `EELSEdge.__signal_eels_interval` slot
nominally holds an `EELSInterval`, but the `electron_shell` setter (source
lines 128-131) assigns an `ElectronShell` into it.  The slot therefore holds
either. -/
inductive SignalSlotVal where
  | interval (i : EELSInterval)
  | shell (s : ElectronShell)
deriving DecidableEq, Repr

/-- A fit interval as stored in an edge's list: the interval value plus an
object-identity tag (`oid`).  Python `list.remove` and default `==` compare
by identity; two occurrences of the same object share one `oid`, distinct
objects have distinct `oid`s. -/
structure FitItem where
  oid : Nat
  ival : EELSInterval
deriving DecidableEq, Repr

/-- Python `list.remove(x)`: removes the first element equal to `x`; with
default object equality that is the first element with `x`'s identity. -/
def pyRemove (l : List FitItem) (x : FitItem) : List FitItem :=
  match l with
  | [] => []
  | y :: t => if y.oid = x.oid then t else y :: pyRemove t x

/-- Change notifications emitted by `EELSEdge` (the `Observable` channel). -/
inductive ChangeNotification where
  | propertyChanged (name : String)
  | itemInserted (list_key : String) (item : FitItem) (index : Nat)
  | itemRemoved (list_key : String) (item : FitItem) (index : Nat)
  | itemValueChanged (list_key : String) (item : FitItem) (index : Nat)
deriving DecidableEq, Repr

/-- `EELSEdge`: uuid, one (optional) signal interval slot, an ordered list of
fit intervals, optional shell.  UUIDs are modelled as `Nat`. -/
structure EELSEdge where
  uuid : Nat
  signal_eels_interval : Option SignalSlotVal
  fit_eels_intervals : List FitItem
  electron_shell : Option ElectronShell
deriving DecidableEq, Repr

/-- The `signal_eels_interval` setter: replaces the slot and notifies. -/
def EELSEdge.set_signal_eels_interval (e : EELSEdge) (value : Option EELSInterval) :
    EELSEdge × List ChangeNotification :=
  ({ e with signal_eels_interval := value.map SignalSlotVal.interval },
   [.propertyChanged "signal_eels_interval"])

/-- The `electron_shell` setter, translated exactly from source lines 128-131:
`self.__signal_eels_interval = value` followed by
`self.notify_property_changed("electron_shell")`.  Note that it assigns the
incoming shell into the *signal interval* slot and leaves
`__electron_shell` untouched. -/
def EELSEdge.set_electron_shell (e : EELSEdge) (value : Option ElectronShell) :
    EELSEdge × List ChangeNotification :=
  ({ e with signal_eels_interval := value.map SignalSlotVal.shell },
   [.propertyChanged "electron_shell"])

/-- `EELSEdge.insert_fit_eels_interval`: `list.insert` (which clamps an
out-of-range index, as Python does) then one item-inserted notification. -/
def EELSEdge.insert_fit_eels_interval (e : EELSEdge) (index : Nat) (interval : FitItem) :
    EELSEdge × List ChangeNotification :=
  ({ e with fit_eels_intervals :=
      e.fit_eels_intervals.insertIdx (min index e.fit_eels_intervals.length) interval },
   [.itemInserted "fit_eels_intervals" interval index])

/-- `EELSEdge.append_fit_eels_interval` = insert at `len`. -/
def EELSEdge.append_fit_eels_interval (e : EELSEdge) (interval : FitItem) :
    EELSEdge × List ChangeNotification :=
  e.insert_fit_eels_interval e.fit_eels_intervals.length interval

/-- `EELSEdge.remove_fit_eels_interval`, translated exactly from source lines
140-143: reads `fit_interval = list[index]` (IndexError → `none`), then
`list.remove(fit_interval)` — removing the *first occurrence of that object*,
not necessarily position `index` — then notifies item-removed with the read
element and the requested `index`. -/
def EELSEdge.remove_fit_eels_interval (e : EELSEdge) (index : Nat) :
    Option (EELSEdge × List ChangeNotification) :=
  match e.fit_eels_intervals[index]? with
  | none => none
  | some fit_interval =>
      some ({ e with fit_eels_intervals := pyRemove e.fit_eels_intervals fit_interval },
            [.itemRemoved "fit_eels_intervals" fit_interval index])

/-- `EELSEdge.set_fit_eels_interval`: `list[index] = interval` (IndexError →
`none`) then one item-value-changed notification. -/
def EELSEdge.set_fit_eels_interval (e : EELSEdge) (index : Nat) (interval : FitItem) :
    Option (EELSEdge × List ChangeNotification) :=
  if index < e.fit_eels_intervals.length then
    some ({ e with fit_eels_intervals := e.fit_eels_intervals.set index interval },
          [.itemValueChanged "fit_eels_intervals" interval index])
  else none

/-- The dynamically-typed dict value stored under the `signal_eels_interval`
key: an interval dict normally, a shell dict after the `electron_shell`
setter bug put a shell into the slot (both classes have `_write_to_dict`). -/
inductive SlotDict where
  | interval (d : IntervalDict)
  | shell (d : ShellDict)
deriving DecidableEq, Repr

/-- Serialized form of an `EELSEdge` (`_write_to_dict`): `uuid` always
written; `signal_eels_interval`, `fit_eels_intervals`, `electron_shell` keys
present only when truthy / non-empty. -/
structure EdgeDict where
  uuid : Option Nat
  signal_eels_interval : Option SlotDict
  fit_eels_intervals : Option (List IntervalDict)
  electron_shell : Option ShellDict
deriving DecidableEq, Repr

/-- `EELSEdge._write_to_dict` (source lines 153-163; the duplicated
`signal_eels_interval` write there stores the same value twice and is
idempotent). -/
def EELSEdge.write_to_dict (e : EELSEdge) : EdgeDict where
  uuid := some e.uuid
  signal_eels_interval :=
    e.signal_eels_interval.map fun v =>
      match v with
      | .interval i => .interval i.write_to_dict
      | .shell s => .shell s.write_to_dict
  fit_eels_intervals :=
    if e.fit_eels_intervals.length > 0 then
      some (e.fit_eels_intervals.map fun it => it.ival.write_to_dict)
    else none
  electron_shell := e.electron_shell.map ElectronShell.write_to_dict

/-- `EELSInterval.from_d`: `(d or dict()).get(key, None)` — a missing dict or
missing keys yield absent bounds.  `dict.get("start_ev")` on a shell dict
(which has no such keys) also yields `None`. -/
def EELSInterval.from_d (d : Option SlotDict) : EELSInterval :=
  match d with
  | some (.interval idd) => ⟨idd.start_ev, idd.end_ev⟩
  | some (.shell _) => ⟨none, none⟩
  | none => ⟨none, none⟩

/-- Reading a list of interval dicts creates one fresh `EELSInterval` object
per entry; the model hands the new objects consecutive identity tags
starting at `base`. -/
def readFitIntervals (base : Nat) : List IntervalDict → List FitItem
  | [] => []
  | idd :: rest => ⟨base, ⟨idd.start_ev, idd.end_ev⟩⟩ :: readFitIntervals (base + 1) rest

/-- The reconstruction branch of `EELSEdge.__init__` when `d` is given
(source lines 105-109): uuid from the dict (a fresh random uuid when the key
is absent — `fresh_uuid` stands for that draw), the signal slot is *always*
rebuilt as `EELSInterval.from_d(...)` (never `None`), fit intervals are
rebuilt as fresh objects from the list, the shell via
`ElectronShell.from_d`. -/
def EELSEdge.from_d (d : EdgeDict) (fresh_uuid : Nat) (oid_base : Nat) : EELSEdge where
  uuid := d.uuid.getD fresh_uuid
  signal_eels_interval := some (.interval (EELSInterval.from_d d.signal_eels_interval))
  fit_eels_intervals := readFitIntervals oid_base (d.fit_eels_intervals.getD [])
  electron_shell := ElectronShell.from_d d.electron_shell

/-- Converter object binding a fixed `(data_len, calibration)` pair
(`EELSInterfaceToFractionalIntervalConverter`). -/
structure IntervalConverter where
  eels_data_len : Nat
  eels_calibration : Calibration
deriving DecidableEq, Repr

def IntervalConverter.convert (c : IntervalConverter) (eels_interval : EELSInterval) :
    Option (ℚ × ℚ) :=
  eels_interval.to_fractional_interval c.eels_data_len c.eels_calibration

def IntervalConverter.convert_back (c : IntervalConverter) (interval : ℚ × ℚ) :
    Option EELSInterval :=
  EELSInterval.from_fractional_interval c.eels_data_len c.eels_calibration interval

/-- State of one `IntervalConnection` (source lines 711-744) together with the
two endpoints it couples: the edge's bound interval property and the
graphic's interval.  `blocked` is the connection's own re-entrancy flag
(source line 728); `binding_suppress` is the re-entrancy flag of the
underlying `nion.utils` property binding.  The write counters record the
writes performed *by the connection machinery* (not external assignments). -/
structure ICState where
  edge_signal : Option SignalSlotVal
  graphic_interval : ℚ × ℚ
  blocked : Bool
  binding_suppress : Bool
  edge_write_count : Nat
  graphic_write_count : Nat
deriving DecidableEq, Repr

/-- Synchronous events flowing through an `IntervalConnection`. -/
inductive ICEvent where
  | graphicIntervalChanged
  | edgePropertyChanged
  | bindingTargetSet (fr : ℚ × ℚ)
deriving DecidableEq, Repr

/-- Synchronous event dispatch of an `IntervalConnection`.
`graphicIntervalChanged` is `update_eels_interval` (source lines 729-733):
gated by `blocked`, it sets the flag, runs `interval_binding.update_source`
and resets the flag.  Modelled from the spec (the binding class lives in the
external `nion.utils` library): `update_source` sets the binding's own
re-entrancy flag, converts back, assigns the edge property (whose
property-changed fires synchronously), then clears the flag; the binding's
source listener (`edgePropertyChanged`) is suppressed by that flag, and
otherwise converts the edge value and pushes it through the target setter
`update_interval` (source lines 723-724), whose graphic assignment fires the
graphic's property-changed synchronously.  A `none` result is a raised
exception. -/
def icRun (conv : IntervalConverter) (fuel : Nat) (s : ICState) (ev : ICEvent) :
    Option ICState :=
  match fuel with
  | 0 => none
  | fuel + 1 =>
    match ev with
    | .graphicIntervalChanged =>
        if s.blocked then some s
        else
          let s := { s with blocked := true }
          match conv.convert_back s.graphic_interval with
          | none => none
          | some iv =>
            let s := { s with binding_suppress := true,
                              edge_signal := some (.interval iv),
                              edge_write_count := s.edge_write_count + 1 }
            match icRun conv fuel s .edgePropertyChanged with
            | none => none
            | some s => some { s with binding_suppress := false, blocked := false }
    | .edgePropertyChanged =>
        if s.binding_suppress then some s
        else
          match s.edge_signal with
          | some (.interval iv) =>
              match conv.convert iv with
              | none => none
              | some fr => icRun conv fuel s (.bindingTargetSet fr)
          | _ => none
    | .bindingTargetSet fr =>
        let s := { s with graphic_interval := fr,
                          graphic_write_count := s.graphic_write_count + 1 }
        icRun conv fuel s .graphicIntervalChanged

/-- A single external (user-driven) change of the graphic's interval: the
value is assigned from outside (not counted as a connection write) and the
graphic's property-changed fires into the connection. -/
def icExternalGraphicChange (conv : IntervalConverter) (s : ICState) (fr : ℚ × ℚ) :
    Option ICState :=
  icRun conv 8 { s with graphic_interval := fr } .graphicIntervalChanged

/-- `IntervalConnection.__init__` (source lines 713-736): builds the
converter and the property binding, installs the target setter and registers
the graphic listener.  It performs no write to either endpoint: in
particular the graphic keeps whatever interval it already had. -/
def IntervalConnection.init (eels_edge : EELSEdge) (graphic_interval : ℚ × ℚ) : ICState where
  edge_signal := eels_edge.signal_eels_interval
  graphic_interval := graphic_interval
  blocked := false
  binding_suppress := false
  edge_write_count := 0
  graphic_write_count := 0

/-- Fixed `(eels_data_len, eels_calibration)` context of an
`IntervalListConnection` (source lines 754-757). -/
structure ILCCtx where
  eels_data_len : Nat
  eels_calibration : Calibration
deriving DecidableEq, Repr

/-- State of one `IntervalListConnection` (source lines 747-835): the edge's
fit list, the parallel list of interval-graphic values, the indices captured
by the per-graphic property-changed listeners (listener at position `p`
belongs to graphic `p` and fires `update_fit_eels_interval` with its
*captured* index), the two guard flags and a supply of fresh object ids.
`edge_write_count` counts the `set_fit_eels_interval` calls issued by
`update_fit_eels_interval` (source line 763). -/
structure ILCState where
  fit_eels_intervals : List FitItem
  fit_interval_graphics : List (ℚ × ℚ)
  listener_indices : List Nat
  blocked : Bool
  remove_blocked : Bool
  next_oid : Nat
  edge_write_count : Nat
deriving DecidableEq, Repr

/-- Synchronous events flowing through an `IntervalListConnection` during a
fit-interval value change. -/
inductive ILCEvent where
  | setFitEelsInterval (index : Nat) (item : FitItem)
  | fitEelsIntervalValueChanged (index : Nat) (item : FitItem)
  | updateFitEelsInterval (index : Nat)
deriving DecidableEq, Repr

/-- Synchronous event dispatch of an `IntervalListConnection`.
`setFitEelsInterval` is `EELSEdge.set_fit_eels_interval` (source lines
145-147): assign `list[index]` (IndexError → `none`) and notify
item-value-changed, handled synchronously by the connection.
`fitEelsIntervalValueChanged` is the handler at source lines 820-825: it
pushes the converted value into graphic `index`; that assignment fires the
graphic's property-changed, delivered to the listener registered for that
graphic with its captured index.  `updateFitEelsInterval` is the
graphic-side handler at source lines 760-764: unless `blocked`, it sets the
flag, converts the current value of graphic `index` back (IndexError when
`index` is out of range) into a fresh interval object and writes it into the
edge at `index`, then clears the flag. -/
def ilcRun (ctx : ILCCtx) (fuel : Nat) (s : ILCState) (ev : ILCEvent) : Option ILCState :=
  match fuel with
  | 0 => none
  | fuel + 1 =>
    match ev with
    | .setFitEelsInterval index item =>
        if index < s.fit_eels_intervals.length then
          ilcRun ctx fuel
            { s with fit_eels_intervals := s.fit_eels_intervals.set index item }
            (.fitEelsIntervalValueChanged index item)
        else none
    | .fitEelsIntervalValueChanged index item =>
        match item.ival.to_fractional_interval ctx.eels_data_len ctx.eels_calibration with
        | none => none
        | some fr =>
          if index < s.fit_interval_graphics.length then
            let s := { s with fit_interval_graphics := s.fit_interval_graphics.set index fr }
            match s.listener_indices[index]? with
            | none => some s
            | some ci => ilcRun ctx fuel s (.updateFitEelsInterval ci)
          else none
    | .updateFitEelsInterval index =>
        if s.blocked then some s
        else
          let s := { s with blocked := true }
          match s.fit_interval_graphics[index]? with
          | none => none
          | some fr =>
            match EELSInterval.from_fractional_interval ctx.eels_data_len
                ctx.eels_calibration fr with
            | none => none
            | some iv =>
              let oid := s.next_oid
              let s := { s with next_oid := s.next_oid + 1,
                                edge_write_count := s.edge_write_count + 1 }
              match ilcRun ctx fuel s (.setFitEelsInterval index ⟨oid, iv⟩) with
              | none => none
              | some s => some { s with blocked := false }

/-- Edge-originated `insert_fit_eels_interval(index, item)` together with the
connection's `fit_eels_interval_inserted` handler (source lines 785-803):
the edge inserts (clamping like Python `list.insert`) and notifies with the
raw index; the handler creates a graphic at `before_index`, assigns its value
(the new graphic has no listener attached yet, so this assignment echoes
nowhere) and registers listeners capturing `before_index`.  The computation's
object-list update the handler also performs is outside this model. -/
def ilcInsertOp (ctx : ILCCtx) (s : ILCState) (index : Nat) (item : FitItem) :
    Option ILCState :=
  let i := min index s.fit_eels_intervals.length
  let s := { s with fit_eels_intervals := s.fit_eels_intervals.insertIdx i item }
  match item.ival.to_fractional_interval ctx.eels_data_len ctx.eels_calibration with
  | none => none
  | some fr =>
      some { s with
        fit_interval_graphics :=
          s.fit_interval_graphics.insertIdx (min index s.fit_interval_graphics.length) fr,
        listener_indices :=
          s.listener_indices.insertIdx (min index s.listener_indices.length) index }

/-- Edge-originated `remove_fit_eels_interval(index)` together with the
connection's `fit_eels_interval_removed` handler (source lines 805-818): the
edge reads `list[index]` (IndexError → `none`), removes the *first
occurrence of that object* and notifies with the requested `index`; the
handler — when not remove-blocked — closes and drops the listeners at
`index`, removes graphic `index` from the display (whose
about-to-cascade-delete listener was closed just before, so no echo) and
drops it from the local list. -/
def ilcRemoveOp (s : ILCState) (index : Nat) : Option ILCState :=
  match s.fit_eels_intervals[index]? with
  | none => none
  | some item =>
    let s := { s with fit_eels_intervals := pyRemove s.fit_eels_intervals item }
    if s.remove_blocked then some s
    else
      if index < s.listener_indices.length then
        if index < s.fit_interval_graphics.length then
          some { s with listener_indices := s.listener_indices.eraseIdx index,
                        fit_interval_graphics := s.fit_interval_graphics.eraseIdx index }
        else none
      else none

/-- One edge-originated operation on the fit-interval list while shown. -/
inductive ILCOp where
  | insert (index : Nat) (item : FitItem)
  | remove (index : Nat)
  | setValue (index : Nat) (item : FitItem)
deriving DecidableEq, Repr

/-- Run a finite sequence of edge-originated operations through the live
connection. -/
def ilcRunOps (ctx : ILCCtx) : List ILCOp → ILCState → Option ILCState
  | [], s => some s
  | op :: ops, s =>
    match
      (match op with
       | .insert i it => ilcInsertOp ctx s i it
       | .remove i => ilcRemoveOp s i
       | .setValue i it => ilcRun ctx 8 s (.setFitEelsInterval i it)) with
    | none => none
    | some s => ilcRunOps ctx ops s

/-- The list-parallelism invariant of the spec: equally many graphics as fit
intervals, and graphic `i` holds the fractional conversion of fit interval
`i`, index for index. -/
def ilcParallel (ctx : ILCCtx) (s : ILCState) : Prop :=
  s.fit_interval_graphics.map some =
    s.fit_eels_intervals.map fun it =>
      it.ival.to_fractional_interval ctx.eels_data_len ctx.eels_calibration

/-- Minimal image of a background-subtraction computation as
`EELSQuantificationDisplay.__read` consumes it (source lines 485-509): its
processing id, whether its `source` is this display item, the value of its
`eels_edge_uuid` variable when that variable exists, and the bound objects
read back during reconstruction (graphic and data-item identities). -/
structure CompRecord where
  processing_id : String
  source_is_this_display : Bool
  eels_edge_uuid : Option Nat
  fit_interval_graphics : List Nat
  signal_interval_graphic : Nat
  subtracted : Nat
  background : Nat
deriving DecidableEq, Repr

/-- Python dict assignment `m[k] = v`: replaces the value when the key
exists, otherwise appends the pair. -/
def dictInsert (m : List (Nat × CompRecord)) (k : Nat) (v : CompRecord) :
    List (Nat × CompRecord) :=
  match m with
  | [] => [(k, v)]
  | (k0, v0) :: rest => if k0 = k then (k, v) :: rest else (k0, v0) :: dictInsert rest k v

/-- Python dict lookup `k in m` / `m[k]`. -/
def dictLookup (m : List (Nat × CompRecord)) (k : Nat) : Option CompRecord :=
  match m with
  | [] => none
  | (k0, v0) :: rest => if k0 = k then some v0 else dictLookup rest k

/-- Python `m.pop(k)`: the dict without key `k`. -/
def dictPop (m : List (Nat × CompRecord)) (k : Nat) : List (Nat × CompRecord) :=
  match m with
  | [] => []
  | (k0, v0) :: rest => if k0 = k then rest else (k0, v0) :: dictPop rest k

/-- First pass of `__read` (source lines 485-490): scan the document's
computations for background-subtraction computations whose source is this
display item and which carry an `eels_edge_uuid` variable, building
`computation_map`. -/
def buildComputationMap (comps : List CompRecord) : List (Nat × CompRecord) :=
  comps.foldl
    (fun m c =>
      if c.processing_id = "eels.background_subtraction2" ∧ c.source_is_this_display then
        match c.eels_edge_uuid with
        | some u => dictInsert m u c
        | none => m
      else m)
    []

/-- `EELSQuantification.get_eels_edge_from_uuid` (source lines 214-218):
first edge with the given uuid. -/
def get_eels_edge_from_uuid (eels_edges : List EELSEdge) (eels_edge_uuid : Nat) :
    Option EELSEdge :=
  match eels_edges with
  | [] => none
  | e :: rest =>
      if e.uuid = eels_edge_uuid then some e else get_eels_edge_from_uuid rest eels_edge_uuid

/-- The `EELSEdgeDisplay` bundle as `__read` reconstructs it (source lines
503-509). -/
structure EdgeDisplayRec where
  eels_edge : EELSEdge
  computation : CompRecord
  fit_interval_graphics : List Nat
  signal_interval_graphic : Nat
  background_data_item : Nat
  signal_data_item : Nat
deriving DecidableEq, Repr

/-- Second pass of `__read` (source lines 492-509): for each persisted
`eels_edge_displays` entry take its uuid (a fresh random uuid when the key is
absent; `fresh` supplies those draws), skip the entry silently when the uuid
has no computation in the map, and otherwise pop the computation, look the
edge up in the quantification and `assert eels_edge is not None` — an
`AssertionError` (modelled by `.error`) when the edge is gone — then append
the reconstructed bundle. -/
def readEdgeDisplayList (eels_edges : List EELSEdge) (computation_map : List (Nat × CompRecord))
    (entries : List (Option Nat)) (fresh : Nat) : Except String (List EdgeDisplayRec) :=
  match entries with
  | [] => .ok []
  | entry :: rest =>
    let eels_edge_uuid := entry.getD fresh
    match dictLookup computation_map eels_edge_uuid with
    | some computation =>
        match get_eels_edge_from_uuid eels_edges eels_edge_uuid with
        | none => .error "assert eels_edge is not None"
        | some eels_edge =>
            match readEdgeDisplayList eels_edges (dictPop computation_map eels_edge_uuid)
                rest (fresh + 1) with
            | .error msg => .error msg
            | .ok l =>
                .ok (⟨eels_edge, computation, computation.fit_interval_graphics,
                      computation.signal_interval_graphic, computation.background,
                      computation.subtracted⟩ :: l)
    | none => readEdgeDisplayList eels_edges computation_map rest (fresh + 1)

/-- `EELSQuantificationDisplay.__read`, reconstruction part: build the
computation map from the document's computations, then process the persisted
entries. -/
def quantificationDisplayRead (comps : List CompRecord) (eels_edges : List EELSEdge)
    (entries : List (Option Nat)) (fresh : Nat) : Except String (List EdgeDisplayRec) :=
  readEdgeDisplayList eels_edges (buildComputationMap comps) entries fresh

/-- The document model as `EELSEdgeDisplay.hide` touches it: its computations
and data items, by identity. -/
structure DocModel where
  computations : List Nat
  data_items : List Nat
deriving DecidableEq, Repr

/-- The display item as `hide` touches it: its graphics, by identity. -/
structure DisplayItemM where
  graphics : List Nat
deriving DecidableEq, Repr

/-- `document_model.remove_computation`: removing an absent computation
raises (→ `none`). -/
def DocModel.remove_computation (doc : DocModel) (c : Nat) : Option DocModel :=
  if c ∈ doc.computations then some { doc with computations := doc.computations.erase c }
  else none

/-- `eels_display_item.remove_graphic`: removing an absent graphic raises. -/
def DisplayItemM.remove_graphic (disp : DisplayItemM) (g : Nat) : Option DisplayItemM :=
  if g ∈ disp.graphics then some { disp with graphics := disp.graphics.erase g }
  else none

/-- The `for graphic in self.fit_interval_graphics` removal loop. -/
def removeGraphicsList (disp : DisplayItemM) : List Nat → Option DisplayItemM
  | [] => some disp
  | g :: rest =>
    match disp.remove_graphic g with
    | none => none
    | some d => removeGraphicsList d rest

/-- Local state of one `EELSEdgeDisplay` (source lines 230-241): the four
subscription handles (`true` = open listener), and the non-owning references
into the document. -/
structure EdgeDisplayState where
  signal_interval_connection : Bool
  interval_list_connection : Bool
  signal_about_to_close_connection : Bool
  computation_about_to_close_connection : Bool
  computation : Option Nat
  signal_interval_graphic : Option Nat
  fit_interval_graphics : List Nat
  background_data_item : Option Nat
  signal_data_item : Option Nat
deriving DecidableEq, Repr

/-- All four subscriptions of an `EELSEdgeDisplay` are closed. -/
def EdgeDisplayState.subscriptionsClosed (st : EdgeDisplayState) : Prop :=
  st.signal_interval_connection = false ∧ st.interval_list_connection = false ∧
  st.signal_about_to_close_connection = false ∧
  st.computation_about_to_close_connection = false

/-- Lines 395-397 of `hide`: `if self.computation: remove_computation(...)`;
after either branch the reference is `None`. -/
def removeComputationStep (doc : DocModel) (comp : Option Nat) : Option DocModel :=
  match comp with
  | some c => doc.remove_computation c
  | none => some doc

/-- Lines 398-400 of `hide`: `if self.signal_interval_graphic:
remove_graphic(...)`; after either branch the reference is `None`. -/
def removeGraphicStep (disp : DisplayItemM) (g : Option Nat) : Option DisplayItemM :=
  match g with
  | some g0 => disp.remove_graphic g0
  | none => some disp

/-- Lines 405-410 of `hide`, for one data item: remove it from the document
only when it is still a member of the document's items (they normally
auto-remove with the computation), clearing the reference; otherwise both
the document and the (possibly stale) reference are left alone, exactly as
in the source. -/
def removeDataItemIfPresent (doc : DocModel) (item : Option Nat) : DocModel × Option Nat :=
  match item with
  | some b =>
      if b ∈ doc.data_items then ({ doc with data_items := doc.data_items.erase b }, none)
      else (doc, item)
  | none => (doc, none)

/-- `EELSEdgeDisplay.hide` (source lines 382-410), step for step: close the
four subscriptions (lines 383-394); remove the computation if still
referenced; remove the signal graphic if still referenced; remove each fit
graphic and clear the list (lines 401-403); then handle the two data items.
A `none` result is a raised exception. -/
def EELSEdgeDisplay.hide (doc : DocModel) (disp : DisplayItemM) (st : EdgeDisplayState) :
    Option (DocModel × DisplayItemM × EdgeDisplayState) :=
  match removeComputationStep doc st.computation with
  | none => none
  | some doc =>
    match removeGraphicStep disp st.signal_interval_graphic with
    | none => none
    | some disp =>
      match removeGraphicsList disp st.fit_interval_graphics with
      | none => none
      | some disp =>
        let r1 := removeDataItemIfPresent doc st.background_data_item
        let r2 := removeDataItemIfPresent r1.1 st.signal_data_item
        some (r2.1, disp,
          { st with signal_interval_connection := false, interval_list_connection := false,
                    signal_about_to_close_connection := false,
                    computation_about_to_close_connection := false,
                    computation := none, signal_interval_graphic := none,
                    fit_interval_graphics := [], background_data_item := r1.2,
                    signal_data_item := r2.2 })

/-- The `computation_removed` callback (source lines 363-368), fired when the
host cascades the computation away: clears the computation reference and the
two data-item references (the cascade deletes those items) before requesting
hide. -/
def EdgeDisplayState.computation_removed (st : EdgeDisplayState) : EdgeDisplayState :=
  { st with computation := none, background_data_item := none, signal_data_item := none }

/-- The state of an `EELSEdgeDisplay` after a successful teardown, relative
to the document it was removed from: subscriptions closed, computation and
graphic references cleared, and any remaining (stale) data-item reference no
longer a member of the document. -/
def hiddenState (doc : DocModel) (st : EdgeDisplayState) : Prop :=
  st.subscriptionsClosed ∧ st.computation = none ∧ st.signal_interval_graphic = none ∧
  st.fit_interval_graphics = [] ∧
  (∀ b, st.background_data_item = some b → b ∉ doc.data_items) ∧
  (∀ b, st.signal_data_item = some b → b ∉ doc.data_items)

/-- Values of the fit items created by `readFitIntervals` are exactly the
intervals of the dicts, in order. -/
theorem readFitIntervals_map_ival (base : Nat) (l : List IntervalDict) :
    (readFitIntervals base l).map FitItem.ival =
      l.map fun idd => (⟨idd.start_ev, idd.end_ev⟩ : EELSInterval) := by
  induction l generalizing base with
  | nil => rfl
  | cons idd rest ih => simp [readFitIntervals, ih]

/-- C1 (code bug): the claim says assigning the `electron_shell` setter makes
the `electron_shell` getter return the new shell while leaving
`signal_eels_interval` unchanged, with exactly one
property-changed("electron_shell") notification.  Evaluating the embedded
setter (source lines 128-131) at a concrete edge shows the notification part
holds but nothing else: line 130 assigns `self.__signal_eels_interval`
instead of `self.__electron_shell`, so the getter still returns the old
shell (`None` here, not the new shell) and the signal-interval slot is
overwritten with the shell object. -/
theorem C1_electron_shell_setter_eval :
    EELSEdge.set_electron_shell
        ⟨7, some (.interval ⟨some 400, some 420⟩), [], none⟩ (some ⟨20, 2, 3⟩) =
      (⟨7, some (.shell ⟨20, 2, 3⟩), [], none⟩, [.propertyChanged "electron_shell"]) ∧
    (EELSEdge.set_electron_shell
        ⟨7, some (.interval ⟨some 400, some 420⟩), [], none⟩ (some ⟨20, 2, 3⟩)).1.electron_shell
      ≠ some ⟨20, 2, 3⟩ ∧
    (EELSEdge.set_electron_shell
        ⟨7, some (.interval ⟨some 400, some 420⟩), [], none⟩
        (some ⟨20, 2, 3⟩)).1.signal_eels_interval
      ≠ some (.interval ⟨some 400, some 420⟩) := by
  refine ⟨rfl, ?_, ?_⟩ <;> decide

/-- C8 (code bug): the claim says `remove_fit_eels_interval(i)` removes
exactly the element at position `i` even when the same interval object
occurs at several positions.  Evaluating the embedded mutator (source lines
140-143) on a list holding one object at positions 0 and 2 and removing at
index 2: `list.remove` deletes the *first* occurrence, so position 0
disappears — the result is not the removal of position 2 — while the
notification still reports the element with index 2. -/
theorem C8_remove_fit_eels_interval_eval :
    EELSEdge.remove_fit_eels_interval
        ⟨1, none, [⟨0, ⟨some 1, some 2⟩⟩, ⟨1, ⟨some 3, some 4⟩⟩, ⟨0, ⟨some 1, some 2⟩⟩], none⟩ 2 =
      some (⟨1, none, [⟨1, ⟨some 3, some 4⟩⟩, ⟨0, ⟨some 1, some 2⟩⟩], none⟩,
            [.itemRemoved "fit_eels_intervals" ⟨0, ⟨some 1, some 2⟩⟩ 2]) ∧
    ([⟨1, ⟨some 3, some 4⟩⟩, ⟨0, ⟨some 1, some 2⟩⟩] : List FitItem) ≠
      [⟨0, ⟨some 1, some 2⟩⟩, ⟨1, ⟨some 3, some 4⟩⟩] := by
  refine ⟨?_, ?_⟩ <;> decide

/-- C10: reconstructing an edge from a dict whose `signal_eels_interval` key
is absent (or maps to `None`; both are the absent case of the model) yields
a present, empty signal interval — both bounds absent — never `None`. -/
theorem C10_from_d_signal_never_none (d : EdgeDict) (fresh_uuid oid_base : Nat)
    (h : d.signal_eels_interval = none) :
    (EELSEdge.from_d d fresh_uuid oid_base).signal_eels_interval =
      some (.interval ⟨none, none⟩) := by
  simp [EELSEdge.from_d, EELSInterval.from_d, h]

/-- Witness for C10 at a concrete dict with no signal-interval key. -/
theorem C10_from_d_signal_never_none_witness :
    (⟨some 7, none, none, none⟩ : EdgeDict).signal_eels_interval = none ∧
    (EELSEdge.from_d ⟨some 7, none, none, none⟩ 0 0).signal_eels_interval =
      some (.interval ⟨none, none⟩) :=
  ⟨rfl, C10_from_d_signal_never_none ⟨some 7, none, none, none⟩ 0 0 rfl⟩

/-- C7 counterexample: an edge whose optional signal interval is absent
(`None`) does not round-trip — `_write_to_dict` writes no key and the
reconstructor always builds a present (empty) interval, so presence/absence
of the optional signal interval is not preserved. -/
theorem C7_roundtrip_counterexample :
    (EELSEdge.from_d (EELSEdge.write_to_dict ⟨7, none, [], none⟩) 99 0).signal_eels_interval ≠
      (⟨7, none, [], none⟩ : EELSEdge).signal_eels_interval := by
  decide

/-- C7 as amended: for every edge whose signal slot is absent or holds an
interval (shells only enter the slot through the C1 bug), serializing via
`_write_to_dict` and reconstructing via `EELSEdge(d=...)` preserves the
uuid, the shell reference and every interval bound of the fit intervals
(absent bounds stay absent) and of a *present* signal interval; the one
divergence from the original claim is that an absent signal interval comes
back as a present interval with both bounds absent. -/
theorem C7_roundtrip_amended (e : EELSEdge) (fresh_uuid oid_base : Nat)
    (hwt : ∀ s, e.signal_eels_interval = some s → ∃ iv, s = .interval iv) :
    (EELSEdge.from_d e.write_to_dict fresh_uuid oid_base).uuid = e.uuid ∧
    (EELSEdge.from_d e.write_to_dict fresh_uuid oid_base).electron_shell = e.electron_shell ∧
    (EELSEdge.from_d e.write_to_dict fresh_uuid oid_base).fit_eels_intervals.map FitItem.ival
      = e.fit_eels_intervals.map FitItem.ival ∧
    (EELSEdge.from_d e.write_to_dict fresh_uuid oid_base).signal_eels_interval =
      some (.interval
        (match e.signal_eels_interval with
         | some (.interval iv) => iv
         | _ => ⟨none, none⟩)) := by
  refine ⟨rfl, ?_, ?_, ?_⟩
  · cases h : e.electron_shell with
    | none => simp [EELSEdge.from_d, EELSEdge.write_to_dict, ElectronShell.from_d, h]
    | some sh =>
        cases sh
        simp [EELSEdge.from_d, EELSEdge.write_to_dict, ElectronShell.from_d,
          ElectronShell.write_to_dict, h]
  · by_cases h : e.fit_eels_intervals.length > 0
    · simp only [EELSEdge.from_d, EELSEdge.write_to_dict, if_pos h, Option.getD_some,
        readFitIntervals_map_ival, List.map_map]
      apply List.map_congr_left
      intro it _
      rfl
    · have h0 : e.fit_eels_intervals = [] := by
        cases hfe : e.fit_eels_intervals with
        | nil => rfl
        | cons a l => rw [hfe] at h; simp at h
      simp [EELSEdge.from_d, EELSEdge.write_to_dict, h0, readFitIntervals]
  · cases hs : e.signal_eels_interval with
    | none => simp [EELSEdge.from_d, EELSEdge.write_to_dict, EELSInterval.from_d, hs]
    | some v =>
      cases v with
      | interval iv =>
          simp [EELSEdge.from_d, EELSEdge.write_to_dict, EELSInterval.from_d, hs,
            EELSInterval.write_to_dict]
      | shell sh =>
          rcases hwt _ hs with ⟨iv, hiv⟩
          exact absurd hiv (by simp)

/-- Witness for C7 as amended, at a concrete edge with a present signal
interval, one fit interval with an absent bound, and a shell. -/
theorem C7_roundtrip_amended_witness :
    (∀ s, (⟨5, some (.interval ⟨some 1, none⟩), [⟨3, ⟨none, some 2⟩⟩],
            some ⟨20, 2, 3⟩⟩ : EELSEdge).signal_eels_interval = some s →
        ∃ iv, s = .interval iv) ∧
    ((EELSEdge.from_d
        (EELSEdge.write_to_dict
          ⟨5, some (.interval ⟨some 1, none⟩), [⟨3, ⟨none, some 2⟩⟩], some ⟨20, 2, 3⟩⟩)
        11 50).uuid = 5 ∧
     (EELSEdge.from_d
        (EELSEdge.write_to_dict
          ⟨5, some (.interval ⟨some 1, none⟩), [⟨3, ⟨none, some 2⟩⟩], some ⟨20, 2, 3⟩⟩)
        11 50).electron_shell = some ⟨20, 2, 3⟩ ∧
     (EELSEdge.from_d
        (EELSEdge.write_to_dict
          ⟨5, some (.interval ⟨some 1, none⟩), [⟨3, ⟨none, some 2⟩⟩], some ⟨20, 2, 3⟩⟩)
        11 50).fit_eels_intervals.map FitItem.ival = [⟨none, some 2⟩] ∧
     (EELSEdge.from_d
        (EELSEdge.write_to_dict
          ⟨5, some (.interval ⟨some 1, none⟩), [⟨3, ⟨none, some 2⟩⟩], some ⟨20, 2, 3⟩⟩)
        11 50).signal_eels_interval = some (.interval ⟨some 1, none⟩)) := by
  have hwt : ∀ s, (⟨5, some (.interval ⟨some 1, none⟩), [⟨3, ⟨none, some 2⟩⟩],
      some ⟨20, 2, 3⟩⟩ : EELSEdge).signal_eels_interval = some s →
      ∃ iv, s = .interval iv := by
    intro s hs
    exact ⟨⟨some 1, none⟩, by injection hs with h2; exact h2.symm⟩
  have h := C7_roundtrip_amended
    ⟨5, some (.interval ⟨some 1, none⟩), [⟨3, ⟨none, some 2⟩⟩], some ⟨20, 2, 3⟩⟩ 11 50 hwt
  exact ⟨hwt, h.1, h.2.1, h.2.2.1, h.2.2.2⟩

/-- C6 counterexample: constructing an `IntervalConnection` for an edge whose
signal interval is 400-420 eV against a graphic currently holding interval
(0, 0) (data length 2048, identity calibration) leaves the graphic at
(0, 0); the converted edge value (25/128, 105/512) is *not* pushed into the
graphic during construction (source lines 713-736 only register listeners). -/
theorem C6_init_counterexample :
    (IntervalConnection.init ⟨7, some (.interval ⟨some 400, some 420⟩), [], none⟩
        (0, 0)).graphic_interval = ((0 : ℚ), (0 : ℚ)) ∧
    EELSInterval.to_fractional_interval ⟨some 400, some 420⟩ 2048 ⟨0, 1⟩ =
      some (25 / 128, 105 / 512) ∧
    ((0 : ℚ), (0 : ℚ)) ≠ ((25 / 128 : ℚ), (105 / 512 : ℚ)) := by
  refine ⟨rfl, ?_, ?_⟩
  · simp only [EELSInterval.to_fractional_interval, Calibration.convert_from_calibrated_value]
    norm_num
  · simp only [ne_eq, Prod.mk.injEq, not_and]
    intro h
    norm_num at h

/-- C6 as amended: constructing an `IntervalConnection` does not write to
either endpoint — it only builds the converter and binding and registers the
listeners.  The graphic keeps its prior interval (it is initialized
separately by `EELSEdgeDisplay.show` when the graphic is newly created,
before the connection is built), both write counters start at zero, and the
guard flags start clear. -/
theorem C6_init_no_push (e : EELSEdge) (g : ℚ × ℚ) :
    (IntervalConnection.init e g).graphic_interval = g ∧
    (IntervalConnection.init e g).graphic_write_count = 0 ∧
    (IntervalConnection.init e g).edge_write_count = 0 ∧
    (IntervalConnection.init e g).edge_signal = e.signal_eels_interval ∧
    (IntervalConnection.init e g).blocked = false ∧
    (IntervalConnection.init e g).binding_suppress = false :=
  ⟨rfl, rfl, rfl, rfl, rfl, rfl⟩

/-- C3 (code bug): the claim is the list-parallelism invariant — after any
finite sequence of edge-originated insert/remove/value-change operations on
a shown edge's fit intervals, the graphics list matches the fit list index
for index.  Running the live connection from an empty shown state through
three inserts (the third re-inserting the same interval object that sits at
index 0) and then a removal at index 2 refutes it: the edge's `list.remove`
deletes the first occurrence of the object (position 0) while the
connection's handler removes graphic 2, so afterwards graphic 0 shows
interval (1, 2) although the edge's fit interval 0 is (3, 4). -/
theorem C3_parallelism_violated_eval :
    ilcRunOps ⟨1, ⟨0, 1⟩⟩
      [.insert 0 ⟨0, ⟨some 1, some 2⟩⟩, .insert 1 ⟨1, ⟨some 3, some 4⟩⟩,
       .insert 2 ⟨0, ⟨some 1, some 2⟩⟩, .remove 2]
      ⟨[], [], [], false, false, 100, 0⟩ =
      some ⟨[⟨1, ⟨some 3, some 4⟩⟩, ⟨0, ⟨some 1, some 2⟩⟩], [(1, 2), (3, 4)], [0, 1],
            false, false, 100, 0⟩ ∧
    ¬ ilcParallel ⟨1, ⟨0, 1⟩⟩
        ⟨[⟨1, ⟨some 3, some 4⟩⟩, ⟨0, ⟨some 1, some 2⟩⟩], [(1, 2), (3, 4)], [0, 1],
         false, false, 100, 0⟩ := by
  constructor
  · norm_num [ilcRunOps, ilcInsertOp, ilcRemoveOp, pyRemove,
      EELSInterval.to_fractional_interval, Calibration.convert_from_calibrated_value,
      List.insertIdx, List.eraseIdx]
  · intro h
    simp only [ilcParallel, List.map] at h
    norm_num [EELSInterval.to_fractional_interval,
      Calibration.convert_from_calibrated_value] at h

/-- C4 counterexample: in a clean shown state with one fit interval, a
single edge-originated value change (`set_fit_eels_interval(0, ...)`) pushes
the converted value into graphic 0, and that push *does* re-trigger the
graphic-side handler: `blocked` is only set inside `update_fit_eels_interval`
itself, so the handler is not gated and issues one write back into the edge
(`edge_write_count` ends at 1, a fresh interval object replaces the one just
set), contradicting the claim that the push never causes such a write. -/
theorem C4_value_change_counterexample :
    ilcRun ⟨1, ⟨0, 1⟩⟩ 8
      ⟨[⟨0, ⟨some 1, some 2⟩⟩], [(1, 2)], [0], false, false, 10, 0⟩
      (.setFitEelsInterval 0 ⟨5, ⟨some 3, some 4⟩⟩) =
      some ⟨[⟨10, ⟨some 3, some 4⟩⟩], [(3, 4)], [0], false, false, 11, 1⟩ := by
  norm_num [ilcRun, EELSInterval.to_fractional_interval, EELSInterval.from_fractional_interval,
    Calibration.convert_from_calibrated_value, Calibration.convert_to_calibrated_value]

/-- C4 as amended: in a shown state whose listeners still carry their
positions, an edge-originated value change of fit interval `i` (with both
bounds present, nonzero calibration scale and nonzero data length) pushes the
converted value into graphic `i` one-directionally in its effect, but the
push re-triggers the graphic-side handler exactly once — the guard is clear
during edge-originated pushes — causing exactly one write back into the edge
(a fresh interval object carrying the round-tripped, equal value); that
nested push is then gated by the guard, so the cascade terminates with
graphic `i` holding the converted value and the edge holding the set value. -/
theorem C4_value_change_amended (len : Nat) (cal : Calibration) (s : ILCState) (i oid : Nat)
    (v1 v2 : ℚ) (hl : len ≠ 0) (hsc : cal.scale ≠ 0)
    (hi : i < s.fit_eels_intervals.length)
    (hg : s.fit_interval_graphics.length = s.fit_eels_intervals.length)
    (hL : s.listener_indices = List.range s.fit_eels_intervals.length)
    (hb : s.blocked = false) :
    ilcRun ⟨len, cal⟩ 8 s (.setFitEelsInterval i ⟨oid, ⟨some v1, some v2⟩⟩) =
      some { s with
        fit_eels_intervals := s.fit_eels_intervals.set i ⟨s.next_oid, ⟨some v1, some v2⟩⟩,
        fit_interval_graphics := s.fit_interval_graphics.set i
          (cal.convert_from_calibrated_value v1 / len,
           cal.convert_from_calibrated_value v2 / len),
        blocked := false,
        next_oid := s.next_oid + 1,
        edge_write_count := s.edge_write_count + 1 } := by
  have hlen : ((len : ℚ)) ≠ 0 := Nat.cast_ne_zero.mpr hl
  have hgi : i < s.fit_interval_graphics.length := by rw [hg]; exact hi
  have hto : EELSInterval.to_fractional_interval ⟨some v1, some v2⟩ len cal =
      some (cal.convert_from_calibrated_value v1 / len,
            cal.convert_from_calibrated_value v2 / len) := by
    simp [EELSInterval.to_fractional_interval, hl]
  have hfrom : EELSInterval.from_fractional_interval len cal
      (cal.convert_from_calibrated_value v1 / len,
       cal.convert_from_calibrated_value v2 / len) = some ⟨some v1, some v2⟩ := by
    simp only [EELSInterval.from_fractional_interval, hl, if_false,
      Calibration.convert_to_calibrated_value, Calibration.convert_from_calibrated_value,
      if_neg hl]
    rw [div_mul_cancel₀ _ hlen, div_mul_cancel₀ _ hlen, div_mul_cancel₀ _ hsc,
      div_mul_cancel₀ _ hsc, add_sub_cancel, add_sub_cancel]
  have hLi : s.listener_indices[i]? = some i := by
    rw [hL]; exact List.getElem?_range hi
  simp only [ilcRun, hi, if_true, List.length_set, hto, hgi, ite_true, hLi, hb,
    Bool.false_eq_true, if_false, List.getElem?_set_eq_of_lt, hfrom, List.set_set]

/-- Witness for C4 as amended: the hypotheses and conclusion at a concrete
clean state with one fit interval, unit calibration and data length 1. -/
theorem C4_value_change_amended_witness :
    ((1 : Nat) ≠ 0 ∧ (⟨0, 1⟩ : Calibration).scale ≠ 0 ∧
     0 < ([⟨0, ⟨some 1, some 2⟩⟩] : List FitItem).length ∧
     ([((1 : ℚ), (2 : ℚ))].length = ([⟨0, ⟨some 1, some 2⟩⟩] : List FitItem).length) ∧
     ([0] = List.range ([⟨0, ⟨some 1, some 2⟩⟩] : List FitItem).length)) ∧
    ilcRun ⟨1, ⟨0, 1⟩⟩ 8 ⟨[⟨0, ⟨some 1, some 2⟩⟩], [(1, 2)], [0], false, false, 10, 0⟩
        (.setFitEelsInterval 0 ⟨5, ⟨some 3, some 4⟩⟩) =
      some { (⟨[⟨0, ⟨some 1, some 2⟩⟩], [(1, 2)], [0], false, false, 10, 0⟩ : ILCState) with
        fit_eels_intervals := [⟨0, ⟨some 1, some 2⟩⟩].set 0 ⟨10, ⟨some 3, some 4⟩⟩,
        fit_interval_graphics := [((1 : ℚ), (2 : ℚ))].set 0
          (Calibration.convert_from_calibrated_value ⟨0, 1⟩ 3 / (1 : Nat),
           Calibration.convert_from_calibrated_value ⟨0, 1⟩ 4 / (1 : Nat)),
        blocked := false,
        next_oid := 11,
        edge_write_count := 1 } := by
  refine ⟨⟨by decide, by decide, by decide, by decide, by decide⟩, ?_⟩
  exact C4_value_change_amended 1 ⟨0, 1⟩
    ⟨[⟨0, ⟨some 1, some 2⟩⟩], [(1, 2)], [0], false, false, 10, 0⟩ 0 5 3 4
    (by decide) (by decide) (by decide) (by decide) (by decide) rfl

/-- C5: with the connection's own guard (source line 728) and the property
binding's re-entrancy flag (modelled from the spec, since `nion.utils`'s
binding class is outside this repository), a single external graphic-side
change of the interval results in exactly one write of the converted-back
value into the edge's bound interval property and no write back into the
graphic from that change: the graphic keeps the externally assigned value,
`graphic_write_count` is unchanged, and both flags end clear. -/
theorem C5_no_feedback_loop (len : Nat) (cal : Calibration) (s : ICState) (fr : ℚ × ℚ)
    (hl : len ≠ 0) (hb : s.blocked = false) (hsup : s.binding_suppress = false) :
    icExternalGraphicChange ⟨len, cal⟩ s fr =
      some { s with
        graphic_interval := fr,
        edge_signal := some (.interval
          ⟨some (cal.convert_to_calibrated_value (fr.1 * len)),
           some (cal.convert_to_calibrated_value (fr.2 * len))⟩),
        blocked := false,
        binding_suppress := false,
        edge_write_count := s.edge_write_count + 1 } := by
  have hcb : IntervalConverter.convert_back ⟨len, cal⟩ fr =
      some ⟨some (cal.convert_to_calibrated_value (fr.1 * len)),
            some (cal.convert_to_calibrated_value (fr.2 * len))⟩ := by
    simp [IntervalConverter.convert_back, EELSInterval.from_fractional_interval, hl]
  simp only [icExternalGraphicChange, icRun, hb, Bool.false_eq_true, if_false, hcb, hsup,
    ite_true, if_true]

/-- Witness for C5 at a freshly constructed connection with unit calibration
and data length 1, changing the graphic to (5, 6). -/
theorem C5_no_feedback_loop_witness :
    ((1 : Nat) ≠ 0 ∧
     (IntervalConnection.init ⟨7, some (.interval ⟨some 1, some 2⟩), [], none⟩
        (1, 2)).blocked = false ∧
     (IntervalConnection.init ⟨7, some (.interval ⟨some 1, some 2⟩), [], none⟩
        (1, 2)).binding_suppress = false) ∧
    icExternalGraphicChange ⟨1, ⟨0, 1⟩⟩
        (IntervalConnection.init ⟨7, some (.interval ⟨some 1, some 2⟩), [], none⟩ (1, 2))
        (5, 6) =
      some { IntervalConnection.init ⟨7, some (.interval ⟨some 1, some 2⟩), [], none⟩
              (1, 2) with
        graphic_interval := (5, 6),
        edge_signal := some (.interval
          ⟨some (Calibration.convert_to_calibrated_value ⟨0, 1⟩ (((5 : ℚ), (6 : ℚ)).1 * (1 : Nat))),
           some (Calibration.convert_to_calibrated_value ⟨0, 1⟩ (((5 : ℚ), (6 : ℚ)).2 * (1 : Nat)))⟩),
        blocked := false,
        binding_suppress := false,
        edge_write_count := 1 } := by
  refine ⟨⟨by decide, rfl, rfl⟩, ?_⟩
  exact C5_no_feedback_loop 1 ⟨0, 1⟩
    (IntervalConnection.init ⟨7, some (.interval ⟨some 1, some 2⟩), [], none⟩ (1, 2))
    (5, 6) (by decide) rfl rfl

/-- C2 counterexample: a persisted edge-display entry whose uuid *does* have
a matching background-subtraction computation, but whose edge uuid is no
longer present in the quantification, is not skipped — reconstruction hits
`assert eels_edge is not None` (source line 502) and raises. -/
theorem C2_read_counterexample :
    quantificationDisplayRead
      [⟨"eels.background_subtraction2", true, some 42, [], 0, 1, 2⟩] [] [some 42] 0 =
      .error "assert eels_edge is not None" := by
  rfl

/-- A successful dict lookup pairs the key with a stored value. -/
theorem dictLookup_mem (m : List (Nat × CompRecord)) (k : Nat) (v : CompRecord)
    (h : dictLookup m k = some v) : (k, v) ∈ m := by
  induction m with
  | nil => simp [dictLookup] at h
  | cons p rest ih =>
    obtain ⟨k0, v0⟩ := p
    rw [dictLookup] at h
    by_cases hk : k0 = k
    · rw [if_pos hk] at h
      injection h with hv
      subst hk
      subst hv
      exact List.mem_cons_self _ _
    · rw [if_neg hk] at h
      exact List.mem_cons_of_mem _ (ih h)

/-- Popping a key keeps only pairs that were already present. -/
theorem dictPop_subset (m : List (Nat × CompRecord)) (k : Nat) (p : Nat × CompRecord)
    (h : p ∈ dictPop m k) : p ∈ m := by
  induction m with
  | nil => simp [dictPop] at h
  | cons q rest ih =>
    obtain ⟨k0, v0⟩ := q
    rw [dictPop] at h
    by_cases hk : k0 = k
    · rw [if_pos hk] at h
      exact List.mem_cons_of_mem _ h
    · rw [if_neg hk] at h
      rcases List.mem_cons.mp h with h1 | h2
      · exact h1 ▸ List.mem_cons_self _ _
      · exact List.mem_cons_of_mem _ (ih h2)

/-- Processing the persisted entries never raises as long as every uuid held
in the computation map identifies a live edge; entries whose uuid is not in
the map are skipped silently. -/
theorem readEdgeDisplayList_ok (eels_edges : List EELSEdge) (entries : List (Option Nat)) :
    ∀ (m : List (Nat × CompRecord)) (fresh : Nat),
      (∀ p ∈ m, (get_eels_edge_from_uuid eels_edges p.1).isSome) →
      ∃ l, readEdgeDisplayList eels_edges m entries fresh = .ok l := by
  induction entries with
  | nil => exact fun m fresh _ => ⟨[], rfl⟩
  | cons entry rest ih =>
    intro m fresh h
    rw [readEdgeDisplayList]
    cases hc : dictLookup m (entry.getD fresh) with
    | none => exact ih m (fresh + 1) h
    | some computation =>
      have hm : (entry.getD fresh, computation) ∈ m := dictLookup_mem _ _ _ hc
      have hsome := h _ hm
      cases he : get_eels_edge_from_uuid eels_edges (entry.getD fresh) with
      | none => rw [he] at hsome; simp at hsome
      | some eels_edge =>
        obtain ⟨l, hl⟩ := ih (dictPop m (entry.getD fresh)) (fresh + 1)
          (fun p hp => h p (dictPop_subset _ _ _ hp))
        rw [hl]
        exact ⟨_, rfl⟩

/-- C2 as amended: reconstruction of an `EELSQuantificationDisplay` silently
drops every persisted `eels_edge_displays` entry with no matching
background-subtraction computation, and never raises provided each
computation found in the map names an edge still present in the
quantification; an entry whose matching computation refers to a missing
edge, however, fails the assertion (see the counterexample). -/
theorem C2_read_amended (comps : List CompRecord) (eels_edges : List EELSEdge)
    (entries : List (Option Nat)) (fresh : Nat)
    (h : ∀ p ∈ buildComputationMap comps, (get_eels_edge_from_uuid eels_edges p.1).isSome) :
    ∃ l, quantificationDisplayRead comps eels_edges entries fresh = .ok l :=
  readEdgeDisplayList_ok eels_edges entries (buildComputationMap comps) fresh h

/-- Witness for C2 as amended: one matched entry (uuid 42, edge alive) and
one stale entry (uuid 7, no computation) — reconstruction succeeds,
skipping the stale entry. -/
theorem C2_read_amended_witness :
    (∀ p ∈ buildComputationMap
        [⟨"eels.background_subtraction2", true, some 42, [], 0, 1, 2⟩],
      (get_eels_edge_from_uuid [⟨42, none, [], none⟩] p.1).isSome) ∧
    ∃ l, quantificationDisplayRead
        [⟨"eels.background_subtraction2", true, some 42, [], 0, 1, 2⟩]
        [⟨42, none, [], none⟩] [some 42, some 7] 0 = .ok l := by
  refine ⟨?_, C2_read_amended _ _ _ _ ?_⟩ <;> decide

/-- Removing a data item if present never touches the computations. -/
theorem removeDataItemIfPresent_computations (doc : DocModel) (it : Option Nat) :
    (removeDataItemIfPresent doc it).1.computations = doc.computations := by
  cases it with
  | none => rfl
  | some b =>
    rw [removeDataItemIfPresent]
    split <;> rfl

/-- A reference surviving `removeDataItemIfPresent` names an item that is no
longer in the resulting document. -/
theorem removeDataItemIfPresent_not_mem (doc : DocModel) (it : Option Nat) (b : Nat)
    (h : (removeDataItemIfPresent doc it).2 = some b) :
    b ∉ (removeDataItemIfPresent doc it).1.data_items := by
  cases it with
  | none => simp [removeDataItemIfPresent] at h
  | some b0 =>
    rw [removeDataItemIfPresent] at h ⊢
    by_cases hm : b0 ∈ doc.data_items
    · rw [if_pos hm] at h; cases h
    · rw [if_neg hm] at h ⊢
      injection h with hb
      subst hb
      exact hm

/-- `removeDataItemIfPresent` never adds members. -/
theorem removeDataItemIfPresent_not_mem_mono (doc : DocModel) (it : Option Nat) (b : Nat)
    (h : b ∉ doc.data_items) : b ∉ (removeDataItemIfPresent doc it).1.data_items := by
  cases it with
  | none => exact h
  | some b0 =>
    rw [removeDataItemIfPresent]
    by_cases hm : b0 ∈ doc.data_items
    · rw [if_pos hm]
      exact fun hmem => h (List.mem_of_mem_erase hmem)
    · rw [if_neg hm]
      exact h

/-- On a reference that is absent or already gone from the document,
`removeDataItemIfPresent` changes nothing. -/
theorem removeDataItemIfPresent_noop (doc : DocModel) (it : Option Nat)
    (h : ∀ b, it = some b → b ∉ doc.data_items) :
    removeDataItemIfPresent doc it = (doc, it) := by
  cases it with
  | none => rfl
  | some b =>
    rw [removeDataItemIfPresent, if_neg (h b rfl)]

/-- A successful `hide` leaves the display in the hidden state relative to
the resulting document. -/
theorem hide_ok_hidden (doc : DocModel) (disp : DisplayItemM) (st : EdgeDisplayState)
    (d : DocModel) (p : DisplayItemM) (s2 : EdgeDisplayState)
    (h : EELSEdgeDisplay.hide doc disp st = some (d, p, s2)) : hiddenState d s2 := by
  rw [EELSEdgeDisplay.hide] at h
  cases h1 : removeComputationStep doc st.computation with
  | none => simp only [h1] at h; cases h
  | some doc1 =>
    simp only [h1] at h
    cases h2 : removeGraphicStep disp st.signal_interval_graphic with
    | none => simp only [h2] at h; cases h
    | some disp1 =>
      simp only [h2] at h
      cases h3 : removeGraphicsList disp1 st.fit_interval_graphics with
      | none => simp only [h3] at h; cases h
      | some disp2 =>
        simp only [h3] at h
        simp only [Option.some.injEq, Prod.mk.injEq] at h
        obtain ⟨hd, hp, hs⟩ := h
        subst hd hp
        subst hs
        refine ⟨⟨rfl, rfl, rfl, rfl⟩, rfl, rfl, rfl, ?_, ?_⟩
        · intro b hb
          exact removeDataItemIfPresent_not_mem_mono _ _ _
            (removeDataItemIfPresent_not_mem _ _ _ hb)
        · intro b hb
          exact removeDataItemIfPresent_not_mem _ _ _ hb

/-- On a display already in the hidden state, `hide` raises nothing and is a
no-op: it returns the document, display item and state unchanged. -/
theorem hidden_hide_noop (doc : DocModel) (disp : DisplayItemM) (st : EdgeDisplayState)
    (h : hiddenState doc st) :
    EELSEdgeDisplay.hide doc disp st = some (doc, disp, st) := by
  obtain ⟨⟨h1, h2, h3, h4⟩, hc, hg, hf, hbg, hsi⟩ := h
  rw [EELSEdgeDisplay.hide, hc, hg, hf]
  simp only [removeComputationStep, removeGraphicStep, removeGraphicsList]
  rw [removeDataItemIfPresent_noop doc st.background_data_item hbg]
  rw [removeDataItemIfPresent_noop doc st.signal_data_item hsi]
  obtain ⟨c1, c2, c3, c4, cc, cg, cf, cb, cs⟩ := st
  simp only at h1 h2 h3 h4 hc hg hf
  subst h1 h2 h3 h4 hc hg hf
  rfl

/-- Removing a list of distinct graphics that are all present succeeds. -/
theorem removeGraphicsList_ok (l : List Nat) (disp : DisplayItemM)
    (hnd : l.Nodup) (hmem : ∀ g ∈ l, g ∈ disp.graphics) :
    ∃ d, removeGraphicsList disp l = some d := by
  induction l generalizing disp with
  | nil => exact ⟨disp, rfl⟩
  | cons g rest ih =>
    rw [removeGraphicsList, DisplayItemM.remove_graphic,
      if_pos (hmem g (List.mem_cons_self _ _))]
    refine ih _ (List.Nodup.of_cons hnd) ?_
    intro g2 hg2
    have hne : g2 ≠ g := by
      intro he
      subst he
      exact (List.nodup_cons.mp hnd).1 hg2
    exact (List.mem_erase_of_ne hne).mpr (hmem g2 (List.mem_cons_of_mem _ hg2))

/-- C9: hiding is idempotent and tolerant of external teardown.  (a) When a
`hide` call succeeds, the resulting display state has all four subscriptions
closed, and a second `hide` on the result raises nothing and is a no-op
returning exactly the same document, display item and state: every
connection, computation and graphic reference is already absent, and a
data-item reference — cleared, or stale but no longer a member of the
document — is skipped by the membership guard.  (b) `hide` called after the
backing computation and its cascaded data items were removed externally (so
the `computation_removed` callback has cleared those references) also raises
nothing and closes every subscription, provided the graphics it still
references are present in the display item and pairwise distinct. -/
theorem C9_hide_idempotent_and_tolerant :
    (∀ (doc : DocModel) (disp : DisplayItemM) (st : EdgeDisplayState) d p s2,
        EELSEdgeDisplay.hide doc disp st = some (d, p, s2) →
        s2.subscriptionsClosed ∧ EELSEdgeDisplay.hide d p s2 = some (d, p, s2)) ∧
    (∀ (doc : DocModel) (disp : DisplayItemM) (st : EdgeDisplayState),
        st.fit_interval_graphics.Nodup →
        (∀ g ∈ st.fit_interval_graphics, g ∈ disp.graphics) →
        (∀ g, st.signal_interval_graphic = some g →
          g ∈ disp.graphics ∧ g ∉ st.fit_interval_graphics) →
        ∃ out, EELSEdgeDisplay.hide doc disp st.computation_removed = some out ∧
          out.2.2.subscriptionsClosed) := by
  constructor
  · intro doc disp st d p s2 h
    have hh := hide_ok_hidden doc disp st d p s2 h
    exact ⟨hh.1, hidden_hide_noop d p s2 hh⟩
  · intro doc disp st hnd hmem hsig
    rw [EELSEdgeDisplay.hide]
    simp only [EdgeDisplayState.computation_removed, removeComputationStep]
    cases hg : st.signal_interval_graphic with
    | none =>
        simp only [hg, removeGraphicStep]
        obtain ⟨disp2, hrl⟩ := removeGraphicsList_ok st.fit_interval_graphics disp hnd hmem
        rw [hrl]
        exact ⟨_, rfl, rfl, rfl, rfl, rfl⟩
    | some g =>
        obtain ⟨hgm, hgf⟩ := hsig g hg
        have hmem2 : ∀ g2 ∈ st.fit_interval_graphics,
            g2 ∈ (⟨disp.graphics.erase g⟩ : DisplayItemM).graphics := by
          intro g2 hg2
          have hne : g2 ≠ g := fun he => hgf (he ▸ hg2)
          exact (List.mem_erase_of_ne hne).mpr (hmem g2 hg2)
        obtain ⟨disp2, hrl⟩ := removeGraphicsList_ok st.fit_interval_graphics
          ⟨disp.graphics.erase g⟩ hnd hmem2
        simp only [hg, removeGraphicStep, DisplayItemM.remove_graphic, if_pos hgm]
        rw [hrl]
        exact ⟨_, rfl, rfl, rfl, rfl, rfl⟩

/-- Witness for C9: a concrete shown display (computation 1, signal graphic
4, one fit graphic 5, data items 2 and 3) whose first `hide` succeeds; the
theorem then gives closed subscriptions and an identical no-op second
`hide`. -/
theorem C9_hide_idempotent_and_tolerant_witness :
    EELSEdgeDisplay.hide ⟨[1], [2, 3]⟩ ⟨[4, 5]⟩
        ⟨true, true, true, true, some 1, some 4, [5], some 2, some 3⟩ =
      some (⟨[], []⟩, ⟨[]⟩, ⟨false, false, false, false, none, none, [], none, none⟩) ∧
    (⟨false, false, false, false, none, none, [], none, none⟩ :
        EdgeDisplayState).subscriptionsClosed ∧
    EELSEdgeDisplay.hide ⟨[], []⟩ ⟨[]⟩
        ⟨false, false, false, false, none, none, [], none, none⟩ =
      some (⟨[], []⟩, ⟨[]⟩, ⟨false, false, false, false, none, none, [], none, none⟩) := by
  refine ⟨by rfl, ?_, ?_⟩
  · exact (C9_hide_idempotent_and_tolerant.1 ⟨[1], [2, 3]⟩ ⟨[4, 5]⟩
      ⟨true, true, true, true, some 1, some 4, [5], some 2, some 3⟩ _ _ _ (by rfl)).1
  · exact (C9_hide_idempotent_and_tolerant.1 ⟨[1], [2, 3]⟩ ⟨[4, 5]⟩
      ⟨true, true, true, true, some 1, some 4, [5], some 2, some 3⟩ _ _ _ (by rfl)).2
